import Mathlib

/-!
Verification of the generic data-table component of the mova-client
repository against its natural-language specification.

The component exists in two near-equivalent revisions:
* the primary revision `src/components/data-table.tsx` (embedded here with
  unsuffixed names), and
* a second revision (embedded with the suffix `Alt`).

JavaScript runtime values reached by the search pipeline are modelled by
`JVal` (strings, integers, `null`, and objects as association lists in key
insertion order; JavaScript objects cannot hold duplicate keys, and for the
non-numeric keys used by this component `Object.entries`/property access
follow insertion order).  String operations (`toLowerCase`, `trim`,
`includes`, `split('.')`, `localeCompare`) are modelled over the character
lists of Lean strings; `toLowerCase` and `localeCompare` agree with the
JavaScript functions on the ASCII data this component handles.
-/

/-- JavaScript-like runtime value: `null`, integer number, string, or object. -/
inductive JVal : Type where
  | jnull : JVal
  | jnum (n : Int) : JVal
  | jstr (s : String) : JVal
  | jobj (fields : List (String × JVal)) : JVal

/-- Property access `o[k]` on a JavaScript object modelled as an association
list (objects cannot contain duplicate keys, so the first match is the match). -/
def getProp : List (String × JVal) → String → Option JVal
  | [], _ => none
  | (k', v) :: rest, k => if k' = k then some v else getProp rest k

/-- Truthiness of a JavaScript value (`jnull`, `0` and `""` are falsy). -/
def jsTruthy : JVal → Bool
  | .jnull => false
  | .jnum n => n != 0
  | .jstr s => s != ""
  | .jobj _ => true

/-- One step `acc ? acc[part] : undefined` of the `reduce` inside
`getNestedValue` (src/lib/utils.ts): falsy accumulators and property access on
non-objects yield `undefined`.  The second revision writes `acc && acc[part]`,
which propagates the falsy value instead of `undefined`; after the
`String(val ?? "")` stringification both variants coincide, so one model
serves both revisions. -/
def jsStep : Option JVal → String → Option JVal
  | none, _ => none
  | some v, part =>
    if jsTruthy v then
      match v with
      | .jobj fields => getProp fields part
      | _ => none
    else none

/-- Splitting of a character list on `'.'`, as `path.split('.')` does
(`"a.b" ↦ ["a","b"]`, `"" ↦ [""]`, consecutive dots produce empty parts). -/
def splitOnDot : List Char → List (List Char)
  | [] => [[]]
  | c :: rest =>
    if c = '.' then [] :: splitOnDot rest
    else
      match splitOnDot rest with
      | [] => [[c]]
      | p :: ps => (c :: p) :: ps

/-- Dot-path components of a field path, `path.split('.')`. -/
def splitPath (path : String) : List String :=
  (splitOnDot path.data).map String.mk

/-- Nested property access `getNestedValue(obj, path)` from src/lib/utils.ts:
`path.split(".").reduce((acc, part) => (acc ? acc[part] : undefined), obj)`. -/
def getNestedValue (obj : JVal) (path : String) : Option JVal :=
  (splitPath path).foldl jsStep (some obj)

/-- Stringification `String(val ?? "")` applied to a possibly missing value:
`undefined` and `null` become the empty string. -/
def jsString : Option JVal → String
  | none => ""
  | some .jnull => ""
  | some (.jnum n) => toString n
  | some (.jstr s) => s
  | some (.jobj _) => "[object Object]"

/-- Character-list model of `String.prototype.toLowerCase` (simple one-to-one
lowercasing; agrees with JavaScript on ASCII). -/
def jsToLower (s : String) : String :=
  String.mk (s.data.map Char.toLower)

/-- Character-list model of `String.prototype.trim`: drop leading and
trailing whitespace. -/
def jsTrim (s : String) : String :=
  String.mk (((s.data.dropWhile Char.isWhitespace).reverse.dropWhile
    Char.isWhitespace).reverse)

/-- Model of `s.includes(q)`: `q` occurs as a contiguous substring of `s`. -/
def jsIncludes (s q : String) : Bool :=
  s.data.tails.any fun t => q.data.isPrefixOf t

/-- Record lookup `sels[id]` on the `filterSelections` state object. -/
def recordGet : List (String × String) → String → Option String
  | [], _ => none
  | (k', v) :: rest, k => if k' = k then some v else recordGet rest k

/-- Record update `{ ...prev, [id]: value }`: an existing key is overwritten
in place, a new key is appended. -/
def recordSet : List (String × String) → String → String → List (String × String)
  | [], k, v => [(k, v)]
  | (k', v') :: rest, k, v =>
    if k' = k then (k, v) :: rest else (k', v') :: recordSet rest k v

/-- Filter descriptor `FilterConfig<T>` of the data-table component
(`options` pairs are label/value). -/
structure FilterConfig (T : Type) where
  id : String
  label : String
  options : List (String × String)
  accessor : T → String
  defaultValue : Option String := none

/-- Group descriptor `GroupByConfig<T>`; `sortGroups` is the optional
comparator returning a number. -/
structure GroupByConfig (T : Type) where
  id : String
  label : String
  accessor : T → String
  sortGroups : Option (String → String → Int) := none

/-- Searchable configuration `{ placeholder?, fields }` with dot-notation
field paths. -/
structure SearchableConfig where
  placeholder : Option String := none
  fields : List String

/-- Search predicate of `filteredRows` (primary revision, lines 269–276):
with `q = search.trim().toLowerCase()`, a row passes when search is not
configured, the query is empty, or some configured field's stringified value
contains the query case-insensitively. -/
def passSearch (searchable : Option SearchableConfig) (search : String)
    (row : JVal) : Bool :=
  let q := jsToLower (jsTrim search)
  match searchable with
  | none => true
  | some cfg =>
    if q = "" then true
    else cfg.fields.any fun field =>
      jsIncludes (jsToLower (jsString (getNestedValue row field))) q

/-- Effective selection `(filterSelections[f.id] ?? f.defaultValue) || ""` of
the primary revision (line 282): an absent entry falls back to the filter's
`defaultValue`, and a missing value becomes the empty string. -/
def selectedValue (sels : List (String × String)) (f : FilterConfig JVal) :
    String :=
  match recordGet sels f.id with
  | some v => v
  | none => f.defaultValue.getD ""

/-- Facet predicate of `filteredRows` (primary revision, lines 278–285):
every filter with a non-empty effective selection must match exactly. -/
def passFilters (filters : List (FilterConfig JVal))
    (sels : List (String × String)) (row : JVal) : Bool :=
  filters.all fun f =>
    let sel := selectedValue sels f
    sel = "" || f.accessor row = sel

/-- `filteredRows` of the primary revision (lines 266–288): rows passing both
the search predicate and every facet filter. -/
def filteredRows (data : List JVal) (searchable : Option SearchableConfig)
    (search : String) (filters : List (FilterConfig JVal))
    (sels : List (String × String)) : List JVal :=
  data.filter fun row =>
    passSearch searchable search row && passFilters filters sels row

/-- Effective selection `filterSelections[f.id] || ""` of the second revision
(line 229): no fallback to `defaultValue`. -/
def selectedValueAlt (sels : List (String × String)) (f : FilterConfig JVal) :
    String :=
  (recordGet sels f.id).getD ""

/-- Facet predicate of `filteredRows` in the second revision (lines 226–232). -/
def passFiltersAlt (filters : List (FilterConfig JVal))
    (sels : List (String × String)) (row : JVal) : Bool :=
  filters.all fun f =>
    let sel := selectedValueAlt sels f
    sel = "" || f.accessor row = sel

/-- `filteredRows` of the second revision (lines 213–236). -/
def filteredRowsAlt (data : List JVal) (searchable : Option SearchableConfig)
    (search : String) (filters : List (FilterConfig JVal))
    (sels : List (String × String)) : List JVal :=
  data.filter fun row =>
    passSearch searchable search row && passFiltersAlt filters sels row

/-- First-occurrence deduplication of a key list: the `Object.keys` order of
an object built by successive insertions, for the non-numeric string keys this
component produces. -/
def keysInOrder : List String → List String
  | [] => []
  | k :: rest => k :: (keysInOrder rest).filter fun x => x != k

/-- Group key of a row in the primary revision (line 306,
`currentGroup.accessor(r) ?? "—"`): the accessor is string-valued, so the
nullish guard never fires. -/
def groupKey {T : Type} (g : GroupByConfig T) (r : T) : String :=
  g.accessor r

/-- Group key of a row in the second revision (line 246,
`currentGroup.accessor(row) || "—"`): an empty key is replaced by the em-dash
sentinel. -/
def groupKeyAlt {T : Type} (g : GroupByConfig T) (r : T) : String :=
  if g.accessor r = "" then "—" else g.accessor r

/-- Lexicographic comparison of character lists, the model of the default
comparator `(a, b) => a.localeCompare(b)` (they agree on ASCII labels). -/
def lexLeChars : List Char → List Char → Bool
  | [], _ => true
  | _ :: _, [] => false
  | a :: as, b :: bs =>
    if a < b then true else if b < a then false else lexLeChars as bs

/-- Locale-aware ascending string comparison (see `lexLeChars`). -/
def localeLe (a b : String) : Bool :=
  lexLeChars a.data b.data

/-- Ordering used by `keys.sort(currentGroup.sortGroups ?? ((a, b) =>
a.localeCompare(b)))` (line 311): the caller's numeric comparator when
present, otherwise the locale comparison. -/
def sortLe (cmp : Option (String → String → Int)) (a b : String) : Bool :=
  match cmp with
  | some c => decide (c a b ≤ 0)
  | none => localeLe a b

/-- Ordered insertion of one key. -/
def insertKey (le : String → String → Bool) (k : String) :
    List String → List String
  | [] => [k]
  | x :: xs => if le k x then k :: x :: xs else x :: insertKey le k xs

/-- Model of `keys.sort(cmp)` as a structurally recursive insertion sort: the
key list is duplicate-free, so every comparison sort of it under a total
preorder produces the same list. -/
def sortKeys (le : String → String → Bool) : List String → List String
  | [] => []
  | k :: ks => insertKey le k (sortKeys le ks)

/-- `grouped` of the primary revision (lines 302–313): buckets are built by
pushing each filtered row onto its key's bucket (hence bucket `k` holds
exactly the rows whose key is `k`, in their original order), the keys are
sorted with `sortGroups ?? localeCompare`, and the buckets are re-emitted in
sorted key order. -/
def grouped {T : Type} (g : GroupByConfig T) (rows : List T) :
    List (String × List T) :=
  (sortKeys (sortLe g.sortGroups) (keysInOrder (rows.map (groupKey g)))).map
    fun k => (k, rows.filter fun r => groupKey g r = k)

/-- `groupedData` of the second revision (lines 242–251): the same bucket
construction, but the keys are never sorted — `Object.entries` emits the
buckets in first-occurrence order of the filtered rows. -/
def groupedDataAlt {T : Type} (g : GroupByConfig T) (rows : List T) :
    List (String × List T) :=
  (keysInOrder (rows.map (groupKeyAlt g))).map
    fun k => (k, rows.filter fun r => groupKeyAlt g r = k)

/-- Rows of the current page of TanStack's client-side pagination row model
(sorting state is empty, so the row model preserves the filtered order). -/
def pageRows {T : Type} (filtered : List T) (pageIndex pageSize : Nat) :
    List T :=
  (filtered.drop (pageIndex * pageSize)).take pageSize

/-- Rows actually rendered beneath one group header: each bucket row is
rendered only when `table.getRowModel().rows.find(r => r.original === row)`
finds it in the paginated row model and is dropped otherwise (second
revision lines 392–401; the primary falls back to the same search at lines
950–954).  With duplicate-free rows the find succeeds exactly on page
membership. -/
def renderedBucketRows {T : Type} [DecidableEq T] (filtered bucket : List T)
    (pageIndex pageSize : Nat) : List T :=
  bucket.filter fun r => (pageRows filtered pageIndex pageSize).contains r

/-- `Math.ceil(rowCount / pageSize)`: TanStack's displayed page count.  The
primary component passes no `rowCount` table option, so the row count is the
filtered data length. -/
def pageCount (rowCount pageSize : Nat) : Nat :=
  (rowCount + pageSize - 1) / pageSize

/-- External paging pair `{ pageIndex, pageSize }` of the
`pagination`/`onPaginationChange` props declared at `DataTableProps`
lines 125–127. -/
structure ExternalPagination where
  pageIndex : Nat
  pageSize : Nat
deriving DecidableEq

/-- Component-local state of the primary DataTable (lines 180–302). -/
structure DTState (T : Type) where
  data : List T
  openDelete : Bool
  rowSelection : List String
  sorting : List (String × Bool)
  pageIndex : Nat
  pageSize : Nat
  searchInput : String
  search : String
  filterSelections : List (String × String)
  groupId : String

/-- Initial facet selections (lines 220–226): filters with a truthy
`defaultValue` seed the selection record. -/
def initialSelections {T : Type} (filters : List (FilterConfig T)) :
    List (String × String) :=
  filters.foldl
    (fun acc f =>
      match f.defaultValue with
      | some d => if d ≠ "" then recordSet acc f.id d else acc
      | none => acc)
    []

/-- Mount-time state of the primary DataTable.  The destructuring at lines
159–176 omits the external paging triple declared at lines 125–127, so no
caller-supplied `pagination`/`rowCount` influences the local pagination
state, which starts at `{ pageIndex: 0, pageSize: 10 }` (line 187). -/
def initState {T : Type} (externalData : List T)
    (filters : List (FilterConfig T)) : DTState T :=
  { data := externalData, openDelete := false, rowSelection := [],
    sorting := [], pageIndex := 0, pageSize := 10, searchInput := "",
    search := "", filterSelections := initialSelections filters,
    groupId := "" }

/-- Library reset `_autoResetPageIndex` of TanStack Table v8: the component
sets neither `manualPagination` nor `autoResetPageIndex` in its
`useReactTable` options (lines 381–393), so `autoResetPageIndex` defaults to
true and the library queues `resetPageIndex(0)` whenever the table's `data`
array — the memoized `filteredRows` — changes identity. -/
def autoResetPageIndex {T : Type} (s : DTState T) : DTState T :=
  { s with pageIndex := 0 }

/-- Change of the `data` prop: the effect at line 181 replaces the local row
mirror, the `filteredRows` memo (deps include `data`, lines 266–288)
recomputes to a fresh array, and the row-model recompute triggers the
library's `autoResetPageIndex` — so a data change also zeroes the page
index.  No other state field is touched. -/
def onDataChange {T : Type} (s : DTState T) (newData : List T) : DTState T :=
  autoResetPageIndex { s with data := newData }

/-- `onSortingChange: setSorting` (line 388) followed by the sorted row
model's recompute, which likewise triggers the library's
`autoResetPageIndex`. -/
def setSorting {T : Type} (s : DTState T)
    (newSorting : List (String × Bool)) : DTState T :=
  autoResetPageIndex { s with sorting := newSorting }

/-- Debounce timer firing (lines 199–202): commits the search input into the
applied search text. -/
def commitSearch {T : Type} (s : DTState T) : DTState T :=
  { s with search := s.searchInput }

/-- `setFilter` (lines 227–229): `{ ...prev, [id]: value }`. -/
def setFilter {T : Type} (s : DTState T) (id v : String) : DTState T :=
  { s with filterSelections := recordSet s.filterSelections id v }

/-- `clearAllFilters` (lines 230–232): the selection record becomes empty. -/
def clearAllFilters {T : Type} (s : DTState T) : DTState T :=
  { s with filterSelections := [] }

/-- Effect at lines 291–293, whose dependencies are exactly `search` and
`filterSelections`: it resets `pageIndex` to 0 and touches nothing else. -/
def resetPageEffect {T : Type} (s : DTState T) : DTState T :=
  { s with pageIndex := 0 }

/-- `table.nextPage()`: the table's pagination updates the component's local
state through the internal `onPaginationChange: setPagination` wiring
(line 389).  The caller's `onPaginationChange` prop is never destructured and
hence unreachable, so no external pagination event can be emitted — encoded
by the constantly-`none` event component. -/
def nextPageStep {T : Type} (s : DTState T) :
    DTState T × Option ExternalPagination :=
  ({ s with pageIndex := s.pageIndex + 1 }, none)

/-- Row id used by the table (line 385): the caller's `getRowId` when
supplied, else the stringified row index. -/
def rowIdOf {T : Type} (getRowId : Option (T → Nat → String)) (r : T)
    (i : Nat) : String :=
  match getRowId with
  | some f => f r i
  | none => toString i

/-- `table.getFilteredSelectedRowModel().rows.map(r => r.original)`: the
originals of the filtered rows whose id lies in the selection set. -/
def selectedOriginals {T : Type} (getRowId : Option (T → Nat → String))
    (filtered : List T) (sel : List String) : List T :=
  (filtered.enum.filter fun p => sel.contains (rowIdOf getRowId p.2 p.1)).map
    Prod.snd

/-- Confirm handler of the bulk-delete dialog (lines 1087–1093): collect the
selected originals, close the dialog, hand the rows to the caller's
`onDeleteSelected` callback, then `table.resetRowSelection()`.  The
callback's result, of arbitrary type `ρ`, is never inspected. -/
def confirmDelete {T ρ : Type} (getRowId : Option (T → Nat → String))
    (filtered : List T) (onDeleteSelected : List T → ρ) (s : DTState T) :
    DTState T × List T × ρ :=
  let selectedRows := selectedOriginals getRowId filtered s.rowSelection
  let s1 : DTState T := { s with openDelete := false }
  let out := onDeleteSelected selectedRows
  let s2 : DTState T := { s1 with rowSelection := [] }
  (s2, selectedRows, out)

/-- Search-membership condition exactly as claim C2 phrases it: the query is
empty, or some configured field of the row, stringified and case-folded,
contains the case-folded query (no trimming). -/
def searchSpecLiteral (fields : List String) (q : String) (row : JVal) :
    Prop :=
  q = "" ∨ ∃ field ∈ fields,
    jsIncludes (jsToLower (jsString (getNestedValue row field))) (jsToLower q)
      = true

/-- Facet condition exactly as claim C3 phrases it: only the explicitly
selected, non-empty facet values constrain a row. -/
def facetSpecLiteral (filters : List (FilterConfig JVal))
    (sels : List (String × String)) (r : JVal) : Prop :=
  ∀ p ∈ sels, p.2 ≠ "" → ∀ f ∈ filters, f.id = p.1 → f.accessor r = p.2

/-- Search pass alone, the first of the two commuting set intersections of
claim C8. -/
def applySearch (searchable : Option SearchableConfig) (search : String)
    (data : List JVal) : List JVal :=
  data.filter (passSearch searchable search)

/-- Facet pass alone, the second of the two commuting set intersections of
claim C8. -/
def applyFacets (filters : List (FilterConfig JVal))
    (sels : List (String × String)) (data : List JVal) : List JVal :=
  data.filter (passFilters filters sels)

/-- Fixture: the Scenario A/B/C row `{id:"1", name:"Alice", role:"driver"}`. -/
def rowAlice : JVal :=
  .jobj [("id", .jstr "1"), ("name", .jstr "Alice"), ("role", .jstr "driver")]

/-- Fixture: the Scenario A/B/C row `{id:"2", name:"Bob", role:"owner"}`. -/
def rowBob : JVal :=
  .jobj [("id", .jstr "2"), ("name", .jstr "Bob"), ("role", .jstr "owner")]

/-- Fixture: searchable configuration over the `name` field. -/
def searchName : SearchableConfig :=
  { fields := ["name"] }

/-- Fixture: a role facet whose `defaultValue` selects owners. -/
def roleFilter : FilterConfig JVal :=
  { id := "role", label := "Role", options := [("Owner", "owner")],
    accessor := fun r => jsString (getNestedValue r "role"),
    defaultValue := some "owner" }

/-- Fixture: the same role facet without a `defaultValue`. -/
def roleFilterND : FilterConfig JVal :=
  { roleFilter with defaultValue := none }

/-- Fixture: grouping descriptor over the `role` field for rows that are bare
role strings, with no `sortGroups` comparator. -/
def roleGroup : GroupByConfig String :=
  { id := "role", label := "Role", accessor := fun s => s }

/-- Fixture: a grouping descriptor putting every row in one bucket. -/
def allGroup : GroupByConfig Nat :=
  { id := "all", label := "All", accessor := fun _ => "all" }

/-- Fixture: one 20-row server page, as the Orders page supplies in external
pagination mode. -/
def page20 : List JVal :=
  (List.range 20).map fun n => JVal.jnum n

/-- Fixture: a component state whose user has navigated to page index 3. -/
def statePage3 : DTState JVal :=
  { initState [rowAlice, rowBob] [] with pageIndex := 3 }

/-- Bridge between the executable `jsIncludes` and the substring relation. -/
theorem jsIncludes_iff (s q : String) :
    jsIncludes s q = true ↔ q.data <:+: s.data := by
  simp only [jsIncludes, List.any_eq_true]
  constructor
  · rintro ⟨t, ht, hp⟩
    exact List.infix_iff_prefix_suffix.mpr
      ⟨t, List.isPrefixOf_iff_prefix.mp hp, (List.mem_tails _ _).mp ht⟩
  · intro h
    rcases List.infix_iff_prefix_suffix.mp h with ⟨t, hp, hs⟩
    exact ⟨t, (List.mem_tails _ _).mpr hs, List.isPrefixOf_iff_prefix.mpr hp⟩

/-- Injectivity of the character-list constructor of strings. -/
theorem stringMk_inj {l1 l2 : List Char} :
    String.mk l1 = String.mk l2 ↔ l1 = l2 :=
  ⟨fun h => by injection h, fun h => by rw [h]⟩

/-- Lowercasing does not create or destroy emptiness. -/
theorem jsToLower_eq_empty (s : String) : jsToLower s = "" ↔ s = "" := by
  cases s with
  | mk data =>
    simp only [jsToLower, show ("" : String) = String.mk [] from rfl,
      stringMk_inj, List.map_eq_nil_iff]

/-- Record lookup on a duplicate-free selection record finds exactly the
stored pair. -/
theorem recordGet_eq_some_iff {sels : List (String × String)} {k v : String}
    (hnodup : (sels.map Prod.fst).Nodup) :
    recordGet sels k = some v ↔ (k, v) ∈ sels := by
  induction sels with
  | nil => simp [recordGet]
  | cons p rest ih =>
    obtain ⟨k', v'⟩ := p
    simp only [List.map_cons, List.nodup_cons] at hnodup
    by_cases hk : k' = k
    · subst hk
      have hg : recordGet ((k', v') :: rest) k' = some v' := by
        simp [recordGet]
      rw [hg]
      simp only [Option.some.injEq, List.mem_cons, Prod.mk.injEq, true_and]
      constructor
      · intro h
        exact Or.inl h.symm
      · rintro (h | h)
        · exact h.symm
        · exact absurd (List.mem_map.mpr ⟨(k', v), h, rfl⟩) hnodup.1
    · have hg : recordGet ((k', v') :: rest) k = recordGet rest k := by
        simp [recordGet, hk]
      rw [hg, ih hnodup.2]
      simp only [List.mem_cons, Prod.mk.injEq]
      constructor
      · exact Or.inr
      · rintro (⟨h1, -⟩ | h)
        · exact absurd h1.symm hk
        · exact h

/-- Membership is preserved by first-occurrence deduplication. -/
theorem mem_keysInOrder {l : List String} {a : String} :
    a ∈ keysInOrder l ↔ a ∈ l := by
  induction l with
  | nil => simp [keysInOrder]
  | cons k rest ih =>
    simp only [keysInOrder, List.mem_cons, List.mem_filter, ih, bne_iff_ne,
      ne_eq, decide_eq_true_eq]
    constructor
    · rintro (h | ⟨h, -⟩)
      · exact Or.inl h
      · exact Or.inr h
    · rintro (h | h)
      · exact Or.inl h
      · by_cases hak : a = k
        · exact Or.inl hak
        · exact Or.inr ⟨h, hak⟩

/-- First-occurrence deduplication is duplicate-free. -/
theorem nodup_keysInOrder (l : List String) : (keysInOrder l).Nodup := by
  induction l with
  | nil => simp [keysInOrder]
  | cons k rest ih =>
    simp only [keysInOrder, List.nodup_cons]
    refine ⟨fun hmem => ?_, ih.filter _⟩
    have := (List.mem_filter.mp hmem).2
    simp at this

/-- Ordered insertion permutes consing. -/
theorem insertKey_perm (le : String → String → Bool) (k : String)
    (l : List String) : (insertKey le k l).Perm (k :: l) := by
  induction l with
  | nil => simp [insertKey]
  | cons x xs ih =>
    by_cases h : le k x = true
    · simp [insertKey, h]
    · simp only [insertKey, if_neg h]
      exact (ih.cons x).trans (List.Perm.swap k x xs)

/-- The sorted key list is a permutation of the input keys. -/
theorem sortKeys_perm (le : String → String → Bool) (l : List String) :
    (sortKeys le l).Perm l := by
  induction l with
  | nil => simp [sortKeys]
  | cons k ks ih =>
    exact (insertKey_perm le k (sortKeys le ks)).trans (ih.cons k)

/-- Ordered insertion preserves sortedness for a total, transitive ordering. -/
theorem pairwise_insertKey {le : String → String → Bool}
    (htrans : ∀ a b c, le a b = true → le b c = true → le a c = true)
    (htotal : ∀ a b, le a b = true ∨ le b a = true)
    (k : String) {l : List String}
    (hl : l.Pairwise fun a b => le a b = true) :
    (insertKey le k l).Pairwise fun a b => le a b = true := by
  induction l with
  | nil => simp [insertKey]
  | cons x xs ih =>
    rcases List.pairwise_cons.mp hl with ⟨hx, hxs⟩
    by_cases h : le k x = true
    · rw [insertKey, if_pos h]
      refine List.pairwise_cons.mpr ⟨?_, hl⟩
      intro b hb
      rcases List.mem_cons.mp hb with rfl | hb
      · exact h
      · exact htrans k x b h (hx b hb)
    · rw [insertKey, if_neg h]
      refine List.pairwise_cons.mpr ⟨?_, ih hxs⟩
      intro b hb
      have hperm := insertKey_perm le k xs
      have hb' : b ∈ k :: xs := hperm.mem_iff.mp hb
      rcases List.mem_cons.mp hb' with rfl | hb''
      · rcases htotal b x with hbx | hxb
        · exact absurd hbx h
        · exact hxb
      · exact hx b hb''

/-- Insertion sort is sorted for a total, transitive ordering. -/
theorem pairwise_sortKeys {le : String → String → Bool}
    (htrans : ∀ a b c, le a b = true → le b c = true → le a c = true)
    (htotal : ∀ a b, le a b = true ∨ le b a = true) (l : List String) :
    (sortKeys le l).Pairwise fun a b => le a b = true := by
  induction l with
  | nil => simp [sortKeys]
  | cons k ks ih => exact pairwise_insertKey htrans htotal k ih

/-- Unfolding of the lexicographic comparison on nonempty lists. -/
theorem lexLeChars_cons_iff {a b : Char} {as bs : List Char} :
    lexLeChars (a :: as) (b :: bs) = true ↔
      a < b ∨ (a = b ∧ lexLeChars as bs = true) := by
  by_cases hab : a < b
  · simp [lexLeChars, hab]
  · by_cases hba : b < a
    · have : a ≠ b := ne_of_gt hba
      simp [lexLeChars, hab, hba, this]
    · have heq : a = b := le_antisymm (not_lt.mp hba) (not_lt.mp hab)
      simp [lexLeChars, hab, hba, heq]

/-- The lexicographic comparison is total. -/
theorem lexLeChars_total :
    ∀ l1 l2 : List Char, lexLeChars l1 l2 = true ∨ lexLeChars l2 l1 = true := by
  intro l1
  induction l1 with
  | nil => intro l2; exact Or.inl rfl
  | cons a as ih =>
    intro l2
    cases l2 with
    | nil => exact Or.inr rfl
    | cons b bs =>
      rcases lt_trichotomy a b with h | h | h
      · exact Or.inl (lexLeChars_cons_iff.mpr (Or.inl h))
      · rcases ih bs with h' | h'
        · exact Or.inl (lexLeChars_cons_iff.mpr (Or.inr ⟨h, h'⟩))
        · exact Or.inr (lexLeChars_cons_iff.mpr (Or.inr ⟨h.symm, h'⟩))
      · exact Or.inr (lexLeChars_cons_iff.mpr (Or.inl h))

/-- The lexicographic comparison is transitive. -/
theorem lexLeChars_trans :
    ∀ l1 l2 l3 : List Char, lexLeChars l1 l2 = true →
      lexLeChars l2 l3 = true → lexLeChars l1 l3 = true := by
  intro l1
  induction l1 with
  | nil => intro l2 l3 _ _; rfl
  | cons a as ih =>
    intro l2 l3 h12 h23
    cases l2 with
    | nil => exact absurd h12 (by simp [lexLeChars])
    | cons b bs =>
      cases l3 with
      | nil => exact absurd h23 (by simp [lexLeChars])
      | cons c cs =>
        rcases lexLeChars_cons_iff.mp h12 with hab | ⟨hab, hrec12⟩ <;>
          rcases lexLeChars_cons_iff.mp h23 with hbc | ⟨hbc, hrec23⟩
        · exact lexLeChars_cons_iff.mpr (Or.inl (lt_trans hab hbc))
        · exact lexLeChars_cons_iff.mpr (Or.inl (hbc ▸ hab))
        · exact lexLeChars_cons_iff.mpr (Or.inl (hab ▸ hbc))
        · exact lexLeChars_cons_iff.mpr
            (Or.inr ⟨hab.trans hbc, ih bs cs hrec12 hrec23⟩)

/-- The default bucket ordering is total. -/
theorem localeLe_total (a b : String) :
    localeLe a b = true ∨ localeLe b a = true :=
  lexLeChars_total a.data b.data

/-- The default bucket ordering is transitive. -/
theorem localeLe_trans (a b c : String) (h1 : localeLe a b = true)
    (h2 : localeLe b c = true) : localeLe a c = true :=
  lexLeChars_trans a.data b.data c.data h1 h2

/-- Binning a list by keys covering it and listed without duplicates is a
permutation of the list. -/
theorem flatten_buckets_perm {T : Type} (key : T → String) :
    ∀ (keys : List String) (rows : List T), keys.Nodup →
      (∀ r ∈ rows, key r ∈ keys) →
      ((keys.map fun k => rows.filter fun r => key r = k).flatten).Perm rows := by
  intro keys
  induction keys with
  | nil =>
    intro rows _ hcover
    have : rows = [] := by
      cases rows with
      | nil => rfl
      | cons r rest => exact absurd (hcover r (List.mem_cons_self r rest)) (List.not_mem_nil _)
    simp [this]
  | cons k ks ih =>
    intro rows hnodup hcover
    rcases List.nodup_cons.mp hnodup with ⟨hk, hks⟩
    have hrest :
        (ks.map fun k' => rows.filter fun r => key r = k') =
          ks.map fun k' =>
            (rows.filter fun r => ¬ key r = k).filter fun r => key r = k' := by
      refine List.map_congr_left ?_
      intro k' hk'
      have hne : k' ≠ k := fun h => hk (h ▸ hk')
      rw [List.filter_filter]
      refine (List.filter_congr ?_).symm
      intro r _
      by_cases h : key r = k'
      · simp [h, hne]
      · simp [h]
    have hcover' : ∀ r ∈ rows.filter fun r => ¬ key r = k, key r ∈ ks := by
      intro r hr
      rcases List.mem_filter.mp hr with ⟨hrmem, hrk⟩
      rcases List.mem_cons.mp (hcover r hrmem) with h | h
      · simp [h] at hrk
      · exact h
    have hsplit : ((k :: ks).map fun k' => rows.filter fun r => key r = k').flatten
        = (rows.filter fun r => key r = k) ++
            ((ks.map fun k' => rows.filter fun r => key r = k').flatten) := by
      simp
    rw [hsplit, hrest]
    refine List.Perm.trans
      (List.Perm.append_left _ (ih _ hks hcover')) ?_
    have hfa := List.filter_append_perm (fun r => decide (key r = k)) rows
    simpa using hfa

/-- C8: filtering commutes with searching — applying the facet filters and
then the text search yields the same row list as applying the text search and
then the facet filters, and both equal the fused `filteredRows` pass, for
every data array, search query, searchable configuration, filter set and
selection record. -/
theorem facets_commute_with_search :
    ∀ (data : List JVal) (searchable : Option SearchableConfig) (q : String)
      (filters : List (FilterConfig JVal)) (sels : List (String × String)),
      applyFacets filters sels (applySearch searchable q data) =
          applySearch searchable q (applyFacets filters sels data) ∧
        applyFacets filters sels (applySearch searchable q data) =
          filteredRows data searchable q filters sels := by
  intro data searchable q filters sels
  constructor
  · simp only [applyFacets, applySearch, List.filter_filter]
    exact List.filter_congr fun r _ => Bool.and_comm _ _
  · simp only [applyFacets, applySearch, List.filter_filter, filteredRows]
    exact List.filter_congr fun r _ => Bool.and_comm _ _

/-- C2 (amended): with a searchable configuration and no facet filters, a row
of `data` appears in `filteredRows` iff the trimmed query is empty or some
configured field of the row, stringified and case-folded, contains the
trimmed, case-folded query as a substring; a dot-notation path resolving to
`undefined` or `null` stringifies to the empty string (`jsString`). -/
theorem search_membership (data : List JVal) (cfg : SearchableConfig)
    (q : String) (r : JVal) (hmem : r ∈ data) :
    r ∈ filteredRows data (some cfg) q [] [] ↔
      (jsTrim q = "" ∨ ∃ field ∈ cfg.fields,
        (jsToLower (jsTrim q)).data <:+:
          (jsToLower (jsString (getNestedValue r field))).data) := by
  simp only [filteredRows, List.mem_filter, hmem, true_and, passFilters,
    List.all_nil, Bool.and_true, passSearch]
  by_cases hq : jsToLower (jsTrim q) = ""
  · have h0 : jsTrim q = "" := (jsToLower_eq_empty (jsTrim q)).mp hq
    rw [h0]
    simp [show jsToLower "" = "" from rfl]
  · have hq' : ¬ jsTrim q = "" := fun h => hq (by rw [h]; rfl)
    simp only [if_neg hq, List.any_eq_true, hq', false_or]
    constructor
    · rintro ⟨f, hf, hinc⟩
      exact ⟨f, hf, (jsIncludes_iff _ _).mp hinc⟩
    · rintro ⟨f, hf, hinc⟩
      exact ⟨f, hf, (jsIncludes_iff _ _).mpr hinc⟩

/-- Witness for `search_membership` at Scenario A
(`data = [Alice, Bob]`, `fields = ["name"]`, query `"ali"`). -/
theorem search_membership_witness :
    rowAlice ∈ [rowAlice, rowBob] ∧
      (rowAlice ∈ filteredRows [rowAlice, rowBob] (some searchName) "ali" [] [] ↔
        (jsTrim "ali" = "" ∨ ∃ field ∈ searchName.fields,
          (jsToLower (jsTrim "ali")).data <:+:
            (jsToLower (jsString (getNestedValue rowAlice field))).data)) :=
  ⟨List.Mem.head _,
    search_membership [rowAlice, rowBob] searchName "ali" rowAlice
      (List.Mem.head _)⟩

/-- C2 (counterexample): the claim's untrimmed reading fails on the query
`" ALI "` — `filteredRows` trims the query and keeps the Alice row, while no
field of the row contains the untrimmed, case-folded query `" ali "`. -/
theorem search_trim_counterexample :
    ¬ (rowAlice ∈ filteredRows [rowAlice] (some searchName) " ALI " [] [] ↔
        searchSpecLiteral searchName.fields " ALI " rowAlice) := by
  intro h
  have hmem : rowAlice ∈ filteredRows [rowAlice] (some searchName) " ALI " [] [] :=
    List.Mem.head _
  rcases h.mp hmem with h0 | ⟨f, hf, hinc⟩
  · exact absurd h0 (by decide)
  · have hf' : f = "name" := by simpa [searchName] using hf
    subst hf'
    exact absurd hinc (by decide)

/-- C3 (counterexample): in the primary revision the claim's reading fails
for a facet with a `defaultValue` — with an empty selection record the set of
active `(filterId, value)` pairs is empty, so the claimed condition holds
vacuously for the Alice row, yet `filteredRows` drops her because the unset
role facet falls back to its default `"owner"`. -/
theorem facet_default_counterexample :
    ¬ (rowAlice ∈ filteredRows [rowAlice] none "" [roleFilter] [] ↔
        facetSpecLiteral [roleFilter] [] rowAlice) := by
  intro h
  have hspec : facetSpecLiteral [roleFilter] [] rowAlice := by
    intro p hp
    exact absurd hp (List.not_mem_nil p)
  have hmem := h.mpr hspec
  have hnil : rowAlice ∈ ([] : List JVal) := hmem
  exact absurd hnil (List.not_mem_nil _)

/-- C3 (amended): for every data array, filter set in which no filter
declares a `defaultValue`, duplicate-free selection record and row of the
data, the row appears in the filtered output iff for every explicitly
selected non-empty `(filterId, value)` pair every filter with that id
matches the row exactly; filters with empty or unset selections impose no
constraint.  (In the primary revision an unset selection of a filter with a
`defaultValue` falls back to that default, which is why the hypothesis
excludes defaults; claim C10 covers the fallback.) -/
theorem facet_and_semantics (data : List JVal)
    (filters : List (FilterConfig JVal)) (sels : List (String × String))
    (r : JVal) (hnodup : (sels.map Prod.fst).Nodup)
    (hnodef : ∀ f ∈ filters, f.defaultValue = none) (hmem : r ∈ data) :
    r ∈ filteredRows data none "" filters sels ↔
      facetSpecLiteral filters sels r := by
  simp only [filteredRows, List.mem_filter, hmem, true_and, passSearch,
    Bool.true_and, passFilters, List.all_eq_true, Bool.or_eq_true,
    decide_eq_true_eq]
  constructor
  · intro hall p hp hpne f hf hid
    have hget : recordGet sels f.id = some p.2 := by
      rw [hid]
      exact (recordGet_eq_some_iff hnodup).mpr hp
    have hsel : selectedValue sels f = p.2 := by
      simp [selectedValue, hget]
    rcases hall f hf with h | h
    · rw [hsel] at h
      exact absurd h hpne
    · rw [hsel] at h
      exact h
  · intro hspec f hf
    cases hg : recordGet sels f.id with
    | none =>
      left
      simp [selectedValue, hg, hnodef f hf]
    | some v =>
      by_cases hv : v = ""
      · left
        simp [selectedValue, hg, hv]
      · right
        have hpmem : (f.id, v) ∈ sels := (recordGet_eq_some_iff hnodup).mp hg
        have := hspec (f.id, v) hpmem hv f hf rfl
        simpa [selectedValue, hg] using this

/-- Witness for `facet_and_semantics`: Scenario B — the role facet without a
default, selection `role = owner`, and the Bob row. -/
theorem facet_and_semantics_witness :
    ((([("role", "owner")] : List (String × String)).map Prod.fst).Nodup ∧
      (∀ f ∈ [roleFilterND], f.defaultValue = none) ∧
      rowBob ∈ [rowAlice, rowBob]) ∧
    (rowBob ∈ filteredRows [rowAlice, rowBob] none "" [roleFilterND]
        [("role", "owner")] ↔
      facetSpecLiteral [roleFilterND] [("role", "owner")] rowBob) := by
  have h1 : (([("role", "owner")] : List (String × String)).map Prod.fst).Nodup := by
    simp
  have h2 : ∀ f ∈ [roleFilterND], f.defaultValue = none := by
    intro f hf
    rw [List.mem_singleton] at hf
    subst hf
    rfl
  have h3 : rowBob ∈ [rowAlice, rowBob] := by
    exact List.mem_cons_of_mem _ (List.Mem.head _)
  exact ⟨⟨h1, h2, h3⟩,
    facet_and_semantics [rowAlice, rowBob] [roleFilterND] [("role", "owner")]
      rowBob h1 h2 h3⟩

/-- C10: in the primary revision, clearing all filters empties the selection
record, and with an empty selection record a row of `data` passes the facet
pass iff every filter's `defaultValue` is absent or empty or matches the row
— the default constraint is re-applied whenever no explicit selection
exists, so the reset affordance cannot remove it. -/
theorem clear_filters_keeps_defaults :
    (∀ (T : Type) (s : DTState T), (clearAllFilters s).filterSelections = []) ∧
      ∀ (data : List JVal) (filters : List (FilterConfig JVal)) (r : JVal),
        r ∈ data →
        (r ∈ filteredRows data none "" filters [] ↔
          ∀ f ∈ filters, f.defaultValue.getD "" = "" ∨
            f.accessor r = f.defaultValue.getD "") := by
  constructor
  · intro T s
    rfl
  · intro data filters r hmem
    simp only [filteredRows, List.mem_filter, hmem, true_and, passSearch,
      Bool.true_and, passFilters, List.all_eq_true, Bool.or_eq_true,
      decide_eq_true_eq, selectedValue, recordGet]

/-- Witness for `clear_filters_keeps_defaults`: after a reset, the owner
default of `roleFilter` still constrains the rows — the iff instantiated at
the Alice row, whose role is `"driver"`. -/
theorem clear_filters_keeps_defaults_witness :
    rowAlice ∈ [rowAlice, rowBob] ∧
      (rowAlice ∈ filteredRows [rowAlice, rowBob] none "" [roleFilter] [] ↔
        ∀ f ∈ [roleFilter], f.defaultValue.getD "" = "" ∨
          f.accessor rowAlice = f.defaultValue.getD "") :=
  ⟨List.Mem.head _,
    clear_filters_keeps_defaults.2 [rowAlice, rowBob] [roleFilter] rowAlice
      (List.Mem.head _)⟩

/-- Buckets over a key list that permutes the first-occurrence keys flatten
to a permutation of the rows. -/
theorem grouped_parts_perm {T : Type} (key : T → String) (keys : List String)
    (rows : List T) (hperm : keys.Perm (keysInOrder (rows.map key))) :
    (((keys.map fun k => (k, rows.filter fun r => key r = k)).map
      Prod.snd).flatten).Perm rows := by
  rw [List.map_map]
  have hnodup : keys.Nodup := hperm.symm.nodup (nodup_keysInOrder _)
  have hcover : ∀ r ∈ rows, key r ∈ keys := by
    intro r hr
    exact hperm.mem_iff.mpr (mem_keysInOrder.mpr (List.mem_map_of_mem key hr))
  exact flatten_buckets_perm key keys rows hnodup hcover

/-- Every row stored in a bucket carries that bucket's key. -/
theorem grouped_bucket_keys {T : Type} (key : T → String) (keys : List String)
    (rows : List T) :
    ∀ b ∈ keys.map fun k => (k, rows.filter fun r => key r = k),
      ∀ r ∈ b.2, key r = b.1 := by
  intro b hb r hr
  rcases List.mem_map.mp hb with ⟨k, -, rfl⟩
  exact of_decide_eq_true (List.mem_filter.mp hr).2

/-- C5: in both revisions grouping is a partition of the filtered rows — the
concatenation of all bucket contents is a permutation of the input rows (no
row dropped or duplicated), and every row sits in the bucket keyed by the
string its accessor produces (in the second revision an empty key is the
em-dash sentinel bucket, `groupKeyAlt`). -/
theorem grouping_partitions {T : Type} :
    ∀ (g : GroupByConfig T) (rows : List T),
      (((grouped g rows).map Prod.snd).flatten).Perm rows ∧
      (∀ b ∈ grouped g rows, ∀ r ∈ b.2, groupKey g r = b.1) ∧
      (((groupedDataAlt g rows).map Prod.snd).flatten).Perm rows ∧
      (∀ b ∈ groupedDataAlt g rows, ∀ r ∈ b.2, groupKeyAlt g r = b.1) := by
  intro g rows
  refine ⟨?_, ?_, ?_, ?_⟩
  · exact grouped_parts_perm (groupKey g) _ rows (sortKeys_perm _ _)
  · exact grouped_bucket_keys (groupKey g) _ rows
  · exact grouped_parts_perm (groupKeyAlt g) _ rows (List.Perm.refl _)
  · exact grouped_bucket_keys (groupKeyAlt g) _ rows

/-- C6 (amended): in the primary revision the buckets are emitted in sorted
key order — whenever the bucket ordering `sortLe g.sortGroups` (the caller's
`sortGroups` comparator when provided, otherwise the locale comparison) is
transitive and total, the emitted bucket labels are pairwise in that order. -/
theorem bucket_order_sorted {T : Type} (g : GroupByConfig T) (rows : List T)
    (htrans : ∀ a b c, sortLe g.sortGroups a b = true →
      sortLe g.sortGroups b c = true → sortLe g.sortGroups a c = true)
    (htotal : ∀ a b, sortLe g.sortGroups a b = true ∨
      sortLe g.sortGroups b a = true) :
    ((grouped g rows).map Prod.fst).Pairwise
      fun a b => sortLe g.sortGroups a b = true := by
  unfold grouped
  rw [List.map_map]
  have hfst : (Prod.fst ∘ fun k =>
      (k, rows.filter fun r => groupKey g r = k)) = id := rfl
  rw [hfst, List.map_id]
  exact pairwise_sortKeys htrans htotal _

/-- Witness for `bucket_order_sorted`: grouping the rows
`["owner", "driver"]` by themselves with no comparator emits the bucket
labels in ascending order, `"driver"` before `"owner"` (Scenario C). -/
theorem bucket_order_sorted_witness :
    (grouped roleGroup ["owner", "driver"]).map Prod.fst =
        ["driver", "owner"] ∧
      ((grouped roleGroup ["owner", "driver"]).map Prod.fst).Pairwise
        fun a b => sortLe roleGroup.sortGroups a b = true :=
  ⟨rfl, bucket_order_sorted roleGroup ["owner", "driver"]
    (fun a b c h1 h2 => localeLe_trans a b c h1 h2)
    (fun a b => localeLe_total a b)⟩

/-- C6 (counterexample): the second revision never sorts the bucket keys —
grouping the rows `["owner", "driver"]` by themselves emits
`["owner", "driver"]` in first-occurrence order, which is not ascending
under the default (locale) comparison. -/
theorem bucket_order_alt_counterexample :
    (groupedDataAlt roleGroup ["owner", "driver"]).map Prod.fst =
        ["owner", "driver"] ∧
      ¬ (["owner", "driver"].Pairwise fun a b => localeLe a b = true) :=
  ⟨rfl, by decide⟩

/-- C9: when grouping is active a bucket row is rendered iff it also lies on
the current pagination page (first conjunct), while the header count is the
full bucket length over all filtered rows — so on the concrete input of five
rows in one bucket with page size 2, the header announces 5 rows but only 2
are rendered. -/
theorem grouped_rendering_page_scoped :
    (∀ (T : Type) [DecidableEq T] (filtered bucket : List T)
      (pageIndex pageSize : Nat) (r : T),
      r ∈ renderedBucketRows filtered bucket pageIndex pageSize ↔
        r ∈ bucket ∧ r ∈ pageRows filtered pageIndex pageSize) ∧
      groupedDataAlt allGroup [0, 1, 2, 3, 4] = [("all", [0, 1, 2, 3, 4])] ∧
      (renderedBucketRows [0, 1, 2, 3, 4] [0, 1, 2, 3, 4] 0 2).length = 2 ∧
      (2 : Nat) < 5 := by
  refine ⟨?_, rfl, rfl, by decide⟩
  intro T _ filtered bucket pageIndex pageSize r
  simp [renderedBucketRows, List.mem_filter]

/-- C1: the primary component never enters an external pagination mode.  At
mount it ignores the caller's paging props (`pageSize` stays 10 even when the
caller passes `{pageIndex: 0, pageSize: 20}` with `rowCount = 57` over a
20-row page), the displayed page count comes from the local data length and
local page size (2, not `ceil(57/20) = 3`), the component re-slices the
supplied page down to its first 10 rows, and page navigation emits no
external pagination event because `onPaginationChange` is never destructured. -/
theorem external_pagination_ignored :
    (initState page20 ([] : List (FilterConfig JVal))).pageIndex = 0 ∧
      (initState page20 ([] : List (FilterConfig JVal))).pageSize = 10 ∧
      filteredRows page20 none "" [] [] = page20 ∧
      pageCount (filteredRows page20 none "" [] []).length
        (initState page20 ([] : List (FilterConfig JVal))).pageSize = 2 ∧
      pageCount 57 20 = 3 ∧
      pageRows (filteredRows page20 none "" [] []) 0 10 =
        (List.range 10).map (fun n => JVal.jnum n) ∧
      (pageRows (filteredRows page20 none "" [] []) 0 10).length ≠
        page20.length ∧
      (nextPageStep (initState page20 ([] : List (FilterConfig JVal)))).2 =
        none :=
  ⟨rfl, rfl, rfl, rfl, rfl, rfl, by decide, rfl⟩

/-- C4: the confirm handler of the bulk delete hands the caller's callback
exactly the selected originals of the pre-state, and the post-state has an
empty selection set and a closed dialog for every callback and every result
type — the outcome of the delete callback cannot prevent the reset. -/
theorem delete_clears_selection :
    ∀ (T ρ : Type) (getRowId : Option (T → Nat → String)) (filtered : List T)
      (cb : List T → ρ) (s : DTState T),
      (confirmDelete getRowId filtered cb s).1.rowSelection = [] ∧
        (confirmDelete getRowId filtered cb s).1.openDelete = false ∧
        (confirmDelete getRowId filtered cb s).2.1 =
          selectedOriginals getRowId filtered s.rowSelection ∧
        (confirmDelete getRowId filtered cb s).2.2 =
          cb (selectedOriginals getRowId filtered s.rowSelection) ∧
        ∀ (σ : Type) (cb2 : List T → σ),
          (confirmDelete getRowId filtered cb2 s).1 =
            (confirmDelete getRowId filtered cb s).1 := by
  intro T ρ getRowId filtered cb s
  exact ⟨rfl, rfl, rfl, rfl, fun σ cb2 => rfl⟩

/-- C7 (counterexample): a `data`-prop change does reset the page index —
TanStack's `autoResetPageIndex` defaults to true, so replacing the data of a
state sitting on page 3 yields page 0, refuting the claim that pagination
state survives data changes unchanged. -/
theorem data_change_resets_page_counterexample :
    statePage3.pageIndex = 3 ∧
      (onDataChange statePage3 [rowBob]).pageIndex = 0 ∧
      (onDataChange statePage3 [rowBob]).pageIndex ≠ statePage3.pageIndex :=
  ⟨rfl, rfl, by decide⟩

/-- C7 (amended): search text, applied search, facet selections, sorting,
`pageSize`, selection and group id are component-local and survive a
`data`-prop change, but `pageIndex` resets to 0 not only through the explicit
effect on `search`/`filterSelections` changes but also on every `data`-prop
change and on every sorting change, because the component leaves TanStack's
`autoResetPageIndex` at its default of true and `filteredRows` is recomputed
to a fresh array; each of these transitions leaves all remaining state
fields unchanged. -/
theorem local_state_frame :
    ∀ (T : Type) (s : DTState T) (newData : List T)
      (newSorting : List (String × Bool)),
      ((onDataChange s newData).searchInput = s.searchInput ∧
        (onDataChange s newData).search = s.search ∧
        (onDataChange s newData).filterSelections = s.filterSelections ∧
        (onDataChange s newData).sorting = s.sorting ∧
        (onDataChange s newData).pageIndex = 0 ∧
        (onDataChange s newData).pageSize = s.pageSize ∧
        (onDataChange s newData).rowSelection = s.rowSelection ∧
        (onDataChange s newData).groupId = s.groupId ∧
        (onDataChange s newData).data = newData) ∧
      ((setSorting s newSorting).sorting = newSorting ∧
        (setSorting s newSorting).pageIndex = 0 ∧
        (setSorting s newSorting).searchInput = s.searchInput ∧
        (setSorting s newSorting).search = s.search ∧
        (setSorting s newSorting).filterSelections = s.filterSelections ∧
        (setSorting s newSorting).pageSize = s.pageSize ∧
        (setSorting s newSorting).rowSelection = s.rowSelection ∧
        (setSorting s newSorting).groupId = s.groupId ∧
        (setSorting s newSorting).data = s.data) ∧
      ((resetPageEffect s).pageIndex = 0 ∧
        (resetPageEffect s).searchInput = s.searchInput ∧
        (resetPageEffect s).search = s.search ∧
        (resetPageEffect s).filterSelections = s.filterSelections ∧
        (resetPageEffect s).sorting = s.sorting ∧
        (resetPageEffect s).pageSize = s.pageSize ∧
        (resetPageEffect s).rowSelection = s.rowSelection ∧
        (resetPageEffect s).groupId = s.groupId ∧
        (resetPageEffect s).data = s.data) := by
  intro T s newData newSorting
  exact ⟨⟨rfl, rfl, rfl, rfl, rfl, rfl, rfl, rfl, rfl⟩,
    ⟨rfl, rfl, rfl, rfl, rfl, rfl, rfl, rfl, rfl⟩,
    ⟨rfl, rfl, rfl, rfl, rfl, rfl, rfl, rfl, rfl⟩⟩
